import Mathlib

/-!
Verification of the move-fuzzer worker core against its design notes.

This file is a shallow embedding, in Lean 4, of the parts of the
`move-fuzzer` crate that the checked properties talk about:

* `src/move-fuzzer/src/move_runner/types.rs` — the `FuzzerType` schema and the
  `Error` taxonomy, and `FuzzerType::from` (ABI type translation);
* `src/move-fuzzer/src/move_runner/arbitrary_inputs.rs` — the byte-stream to
  typed-value synthesiser built on the `arbitrary` crate;
* `src/move-fuzzer/src/move_runner/module_manager/module_store.rs` — the
  self-id keyed module byte store;
* `src/move-fuzzer/src/move_runner/mod.rs` — the VM error classification and
  the coverage trace/file lifecycle of `MoveRunner::execute`;
* `src/move-fuzzer/src/lib.rs` — the libFuzzer driver shim
  (`LLVMFuzzerTestOneInput`, the `Corpus` return codes).

Machine integers are modelled as `Nat` (byte lists carry one `Nat` per byte,
reduced mod 256 where a numeric value is formed); fallible operations return
`Except`; Rust panics are modelled explicitly where a checked property
mentions them (an `Option` layer for the `unwrap`s of the vector synthesis,
`Except String` for the panicking file operations, with the installed panic
hook turning every panic into a process abort).
-/

namespace MoveFuzzer

/-! ## The type schema (types.rs, `FuzzerType`)

`FuzzerType` is the closed set of shapes the synthesiser understands,
translated field for field from the Rust enum. `Vector` boxes one element
type, `Struct` holds the ordered field types. -/

inductive FuzzerType : Type where
  | U8 : FuzzerType
  | U16 : FuzzerType
  | U32 : FuzzerType
  | U64 : FuzzerType
  | U128 : FuzzerType
  | U256 : FuzzerType
  | Bool : FuzzerType
  | Vector : FuzzerType → FuzzerType
  | Struct : List FuzzerType → FuzzerType
  | Signer : FuzzerType
  | Address : FuzzerType
  deriving Repr

/-! ## Runtime values (move_core_types `MoveValue`, the constructors used)

Numeric payloads are `Nat`; an account address is its 32-byte list. -/

inductive MoveValue : Type where
  | Bool : Bool → MoveValue
  | U8 : Nat → MoveValue
  | U16 : Nat → MoveValue
  | U32 : Nat → MoveValue
  | U64 : Nat → MoveValue
  | U128 : Nat → MoveValue
  | U256 : Nat → MoveValue
  | Address : List Nat → MoveValue
  | Signer : List Nat → MoveValue
  | Vector : List MoveValue → MoveValue
  | Struct : List MoveValue → MoveValue
  deriving Repr

/-! ## The error taxonomy (types.rs, `enum Error`)

Translated from the `Error` enum of `types.rs`; every variant carries its
free-form message. `MissingDependency` is the variant constructed by the
classification match of `MoveRunner::execute` (mod.rs line 182); the enum
declaration in the `types.rs` snapshot omits it, so it is included here from
its construction site. -/

inductive Error : Type where
  | Abort : String → Error
  | Runtime : String → Error
  | OutOfBound : String → Error
  | OutOfGas : String → Error
  | ArithmeticError : String → Error
  | MemoryLimitExceeded : String → Error
  | Unknown : String → Error
  | AccountAddressParseError : String → Error
  | MissingDependency : String → Error
  deriving Repr, DecidableEq

/-! ## The `arbitrary` crate primitives used by arbitrary_inputs.rs

The synthesiser reads from an `Unstructured` byte stream, modelled as the
list of bytes not yet consumed. `arbitrary::Error` exists in the crate
(`NotEnoughData`, `IncorrectFormat`, `EmptyChoose`) and appears in every
result type, but none of the operations the synthesiser uses can produce it:
`Unstructured::fill_buffer` copies the available bytes, zero-fills the rest
of the buffer and always returns `Ok`, and every primitive read below is a
`fill_buffer` composed with a total conversion. -/

inductive ArbError : Type where
  | NotEnoughData : ArbError
  | IncorrectFormat : ArbError
  | EmptyChoose : ArbError
  deriving Repr, DecidableEq

/-- Result type of the `arbitrary` crate, `arbitrary::Result<T>`. -/
abbrev ArbResult (α : Type) : Type := Except ArbError α

/-- Remaining unstructured data, together with the fact that reading only
consumes bytes (needed for termination of the vector synthesis loop). -/
abbrev Rest (d : List Nat) : Type := { r : List Nat // r.length ≤ d.length }

/-- `Unstructured::fill_buffer(&mut buf)` for a buffer of `n` bytes: copies
`min n (length d)` bytes from the front of the stream, zero-fills the rest of
the buffer, and advances the stream. It never fails. -/
def fill_buffer (n : Nat) (d : List Nat) : List Nat × Rest d :=
  (d.take n ++ List.replicate (n - d.length) 0,
   ⟨d.drop n, by simp only [List.length_drop]; omega⟩)

/-- Little-endian byte decoding, `uN::from_le_bytes`. Each entry of the list
is reduced mod 256, as a byte. -/
def fromLeBytes : List Nat → Nat
  | [] => 0
  | b :: bs => b % 256 + 256 * fromLeBytes bs

/-- The integer `Arbitrary` implementations of the `arbitrary` crate:
`fill_buffer` over the exact width of the type, then `from_le_bytes`
(width 1, 2, 4, 8, 16 for `u8` … `u128`). -/
def arbitrary_uint (width : Nat) (d : List Nat) : ArbResult Nat × Rest d :=
  let (buf, rest) := fill_buffer width d
  (.ok (fromLeBytes buf), rest)

/-- `<bool as Arbitrary>::arbitrary`: one byte, value `byte & 1 == 1`. -/
def arbitrary_bool (d : List Nat) : ArbResult Bool × Rest d :=
  let (r, rest) := arbitrary_uint 1 d
  (r.map (fun n => decide (n % 2 = 1)), rest)

/-- `arbitrary_u256` (arbitrary_inputs.rs lines 39–43): fills a buffer of
`size_of::<U256>() = 32` bytes and decodes it little-endian. -/
def arbitrary_u256 (d : List Nat) : ArbResult Nat × Rest d :=
  let (buf, rest) := fill_buffer 32 d
  (.ok (fromLeBytes buf), rest)

/-- `AccountAddress::from_bytes` (move_core_types): succeeds exactly when
given 32 bytes, failing with an `AccountAddressParseError` otherwise. -/
def accountAddressFromBytes (bytes : List Nat) : Except String (List Nat) :=
  if bytes.length = 32 then .ok bytes
  else .error "invalid account address length"

/-- `arbitrary_account` (arbitrary_inputs.rs lines 45–49): fills a buffer of
`size_of::<AccountAddress>() = 32` bytes and hands it to the address
parser. -/
def arbitrary_account (d : List Nat) :
    ArbResult (Except String (List Nat)) × Rest d :=
  let (buf, rest) := fill_buffer 32 d
  (.ok (accountAddressFromBytes buf), rest)

/-- `arbitrary_address` (arbitrary_inputs.rs lines 51–57): a parsed account
becomes `MoveValue::Address`; a parse failure becomes the recoverable
`Error::AccountAddressParseError`; an `arbitrary` error propagates (`?`). -/
def arbitrary_address (d : List Nat) :
    ArbResult (Except Error MoveValue) × Rest d :=
  match arbitrary_account d with
  | (.ok (.ok account), rest) => (.ok (.ok (.Address account)), rest)
  | (.ok (.error e), rest) => (.ok (.error (.AccountAddressParseError e)), rest)
  | (.error e, rest) => (.error e, rest)

/-- `arbitrary_signer` (arbitrary_inputs.rs lines 59–65): as
`arbitrary_address`, wrapping the account as `MoveValue::Signer`. -/
def arbitrary_signer (d : List Nat) :
    ArbResult (Except Error MoveValue) × Rest d :=
  match arbitrary_account d with
  | (.ok (.ok account), rest) => (.ok (.ok (.Signer account)), rest)
  | (.ok (.error e), rest) => (.ok (.error (.AccountAddressParseError e)), rest)
  | (.error e, rest) => (.error e, rest)

end MoveFuzzer

namespace MoveFuzzer

/-! ## The synthesiser (arbitrary_inputs.rs)

`arbitrary_input` dispatches on the schema; the vector case is the
`ArbitraryIter` loop (`keep_going = u.arbitrary().unwrap_or(false)` and then
one element per `true`), whose `collect` applies `.unwrap().unwrap()` to each
element result; the struct case recurses through `arbitrary_inputs`.

The `Option` layer of every result models a Rust panic (`none` = the process
is about to die through the abort panic hook): it is produced only by the two
`unwrap`s of `arbitrary_vec` and propagates outward.

`arbitrary_inputs` is the public entry: a loop that pushes each `Ok(Ok(v))`
element and merely prints (and drops) an `Ok(Err(e))` or `Err(e)` element.
One loop iteration is `arbitrary_inputs_step`. -/

/-- One iteration of the accumulation loop of `arbitrary_inputs`
(arbitrary_inputs.rs lines 87–97): `Ok(Ok(value))` is pushed onto the result
vector; `Ok(Err(e))` and `Err(e)` are printed with `eprintln!` and push
nothing. -/
def arbitrary_inputs_step (acc : List MoveValue)
    (r : ArbResult (Except Error MoveValue)) : List MoveValue :=
  match r with
  | .ok (.ok v) => acc ++ [v]
  | .ok (.error _e) => acc
  | .error _e => acc

mutual

/-- `arbitrary_input` (arbitrary_inputs.rs lines 67–81): synthesise one value
of the given schema from the byte stream. -/
def arbitrary_input : (t : FuzzerType) → (d : List Nat) →
    Option (ArbResult (Except Error MoveValue)) × Rest d
  | .Bool, d =>
    let (r, rest) := arbitrary_bool d
    (some (r.map fun b => .ok (.Bool b)), rest)
  | .U8, d =>
    let (r, rest) := arbitrary_uint 1 d
    (some (r.map fun n => .ok (.U8 n)), rest)
  | .U16, d =>
    let (r, rest) := arbitrary_uint 2 d
    (some (r.map fun n => .ok (.U16 n)), rest)
  | .U32, d =>
    let (r, rest) := arbitrary_uint 4 d
    (some (r.map fun n => .ok (.U32 n)), rest)
  | .U64, d =>
    let (r, rest) := arbitrary_uint 8 d
    (some (r.map fun n => .ok (.U64 n)), rest)
  | .U128, d =>
    let (r, rest) := arbitrary_uint 16 d
    (some (r.map fun n => .ok (.U128 n)), rest)
  | .U256, d =>
    let (r, rest) := arbitrary_u256 d
    (some (r.map fun n => .ok (.U256 n)), rest)
  | .Vector t, d =>
    match arbitrary_vec t d with
    | (some vs, rest) => (some (.ok (.ok (.Vector vs))), rest)
    | (none, rest) => (none, rest)
  | .Struct ts, d =>
    match arbitrary_inputs ts d with
    | (some vs, rest) => (some (.ok (.ok (.Struct vs))), rest)
    | (none, rest) => (none, rest)
  | .Address, d =>
    let (r, rest) := arbitrary_address d
    (some r, rest)
  | .Signer, d =>
    let (r, rest) := arbitrary_signer d
    (some r, rest)
termination_by t d => (sizeOf t + d.length, 0)

/-- The `ArbitraryIter` loop collected by `arbitrary_vec` (arbitrary_inputs.rs
lines 11–37). The continue bit is `u.arbitrary::<bool>().unwrap_or(false)`
inlined: on an empty stream the zero-filled byte gives `false`; otherwise the
head byte is consumed and tested `& 1 == 1`. Each kept element result goes
through `.unwrap().unwrap()`, which panics (`none`) unless it is
`Ok(Ok(value))`. -/
def arbitrary_vec : (t : FuzzerType) → (d : List Nat) →
    Option (List MoveValue) × Rest d
  | _, [] => (some [], ⟨[], by simp⟩)
  | t, b :: tl =>
    if b % 2 = 1 then
      match arbitrary_input t tl with
      | (some (.ok (.ok v)), ⟨d2, h2⟩) =>
        match arbitrary_vec t d2 with
        | (some vs, ⟨d3, h3⟩) =>
          (some (v :: vs), ⟨d3, by simp only [List.length_cons]; omega⟩)
        | (none, ⟨d3, h3⟩) =>
          (none, ⟨d3, by simp only [List.length_cons]; omega⟩)
      | (some (.ok (.error _e)), ⟨d2, h2⟩) =>
        (none, ⟨d2, by simp only [List.length_cons]; omega⟩)
      | (some (.error _e), ⟨d2, h2⟩) =>
        (none, ⟨d2, by simp only [List.length_cons]; omega⟩)
      | (none, ⟨d2, h2⟩) =>
        (none, ⟨d2, by simp only [List.length_cons]; omega⟩)
    else
      (some [], ⟨tl, by simp⟩)
termination_by t d => (sizeOf t + d.length, 1)

/-- The accumulation loop of `arbitrary_inputs` (arbitrary_inputs.rs lines
85–98): one `arbitrary_input` per schema, each result folded into the vector
by `arbitrary_inputs_step`; a panic from an element (the `none` layer)
propagates out of the loop. -/
def arbitrary_inputs_go (acc : List MoveValue) :
    (ts : List FuzzerType) → (d : List Nat) →
    Option (List MoveValue) × Rest d
  | [], d => (some acc, ⟨d, Nat.le_refl _⟩)
  | t :: ts, d =>
    match arbitrary_input t d with
    | (none, ⟨d1, h1⟩) => (none, ⟨d1, h1⟩)
    | (some r, ⟨d1, h1⟩) =>
      match arbitrary_inputs_go (arbitrary_inputs_step acc r) ts d1 with
      | (res, ⟨d2, h2⟩) => (res, ⟨d2, Nat.le_trans h2 h1⟩)
termination_by ts d => (sizeOf ts + d.length, 0)

/-- `arbitrary_inputs` (arbitrary_inputs.rs lines 84–100): the public
synthesiser, starting from `res = vec![]`. -/
def arbitrary_inputs (ts : List FuzzerType) (d : List Nat) :
    Option (List MoveValue) × Rest d :=
  arbitrary_inputs_go [] ts d
termination_by (sizeOf ts + d.length, 1)

end

end MoveFuzzer

namespace MoveFuzzer

/-! ## Dead branches of the synthesiser

The helper lemmas below establish, by strong induction on the same measure
that proves termination, that every element synthesis returns `Ok(Ok(value))`:
the `arbitrary` crate layer never fails, the account-address parser never
fails (its buffer always has exactly 32 bytes), the `unwrap`s of the vector
loop never panic, and the drop-an-element arms of `arbitrary_inputs` are
never taken. -/

theorem fill_buffer_fst_length (n : Nat) (d : List Nat) :
    ((fill_buffer n d).1).length = n := by
  simp only [fill_buffer, List.length_append, List.length_take,
    List.length_replicate]
  rcases Nat.le_total n d.length with h | h
  · rw [Nat.min_eq_left h]; omega
  · rw [Nat.min_eq_right h]; omega

theorem arbitrary_account_fst (d : List Nat) :
    (arbitrary_account d).1 = .ok (.ok (fill_buffer 32 d).1) := by
  have hl := fill_buffer_fst_length 32 d
  rcases he : fill_buffer 32 d with ⟨buf, rest⟩
  rw [he] at hl
  simp only at hl
  simp [arbitrary_account, he, accountAddressFromBytes, hl]

theorem arbitrary_address_fst (d : List Nat) :
    (arbitrary_address d).1 = .ok (.ok (.Address (fill_buffer 32 d).1)) := by
  have h := arbitrary_account_fst d
  simp only [arbitrary_address]
  rcases he : arbitrary_account d with ⟨r, rest⟩
  rw [he] at h; simp at h; subst h
  simp

theorem arbitrary_signer_fst (d : List Nat) :
    (arbitrary_signer d).1 = .ok (.ok (.Signer (fill_buffer 32 d).1)) := by
  have h := arbitrary_account_fst d
  simp only [arbitrary_signer]
  rcases he : arbitrary_account d with ⟨r, rest⟩
  rw [he] at h; simp at h; subst h
  simp

theorem synth_ok (n : Nat) :
    (∀ (t : FuzzerType) (d : List Nat), sizeOf t + d.length ≤ n →
      ∃ v, (arbitrary_input t d).1 = some (.ok (.ok v))) ∧
    (∀ (t : FuzzerType) (d : List Nat), sizeOf t + d.length ≤ n →
      ∃ vs, (arbitrary_vec t d).1 = some vs) ∧
    (∀ (acc : List MoveValue) (ts : List FuzzerType) (d : List Nat),
      sizeOf ts + d.length ≤ n →
      ∃ vs, (arbitrary_inputs_go acc ts d).1 = some vs ∧
        vs.length = acc.length + ts.length) := by
  induction n using Nat.strong_induction_on with
  | _ n ih =>
    refine ⟨?_, ?_, ?_⟩
    · -- arbitrary_input
      intro t d hn
      cases t with
      | Bool =>
        exact ⟨.Bool (decide (fromLeBytes (fill_buffer 1 d).1 % 2 = 1)),
          by simp [arbitrary_input, arbitrary_bool, arbitrary_uint, Except.map]⟩
      | U8 =>
        exact ⟨.U8 (fromLeBytes (fill_buffer 1 d).1),
          by simp [arbitrary_input, arbitrary_uint, Except.map]⟩
      | U16 =>
        exact ⟨.U16 (fromLeBytes (fill_buffer 2 d).1),
          by simp [arbitrary_input, arbitrary_uint, Except.map]⟩
      | U32 =>
        exact ⟨.U32 (fromLeBytes (fill_buffer 4 d).1),
          by simp [arbitrary_input, arbitrary_uint, Except.map]⟩
      | U64 =>
        exact ⟨.U64 (fromLeBytes (fill_buffer 8 d).1),
          by simp [arbitrary_input, arbitrary_uint, Except.map]⟩
      | U128 =>
        exact ⟨.U128 (fromLeBytes (fill_buffer 16 d).1),
          by simp [arbitrary_input, arbitrary_uint, Except.map]⟩
      | U256 =>
        exact ⟨.U256 (fromLeBytes (fill_buffer 32 d).1),
          by simp [arbitrary_input, arbitrary_u256, Except.map]⟩
      | Address =>
        exact ⟨.Address (fill_buffer 32 d).1,
          by simp [arbitrary_input, arbitrary_address_fst]⟩
      | Signer =>
        exact ⟨.Signer (fill_buffer 32 d).1,
          by simp [arbitrary_input, arbitrary_signer_fst]⟩
      | Vector t =>
        have hm : sizeOf t + d.length < n := by
          simp only [FuzzerType.Vector.sizeOf_spec] at hn; omega
        obtain ⟨vs, hvs⟩ := (ih _ hm).2.1 t d (Nat.le_refl _)
        rcases he : arbitrary_vec t d with ⟨r, rest⟩
        rw [he] at hvs; simp at hvs; subst hvs
        exact ⟨.Vector vs, by simp [arbitrary_input, he]⟩
      | Struct ts =>
        have hm : sizeOf ts + d.length < n := by
          simp only [FuzzerType.Struct.sizeOf_spec] at hn; omega
        obtain ⟨vs, hvs, _⟩ := (ih _ hm).2.2 [] ts d (Nat.le_refl _)
        have hw : arbitrary_inputs ts d = arbitrary_inputs_go [] ts d := by
          simp [arbitrary_inputs]
        rcases he : arbitrary_inputs_go [] ts d with ⟨r, rest⟩
        rw [he] at hvs; simp at hvs; subst hvs
        exact ⟨.Struct vs, by simp [arbitrary_input, hw, he]⟩
    · -- arbitrary_vec
      intro t d hn
      cases d with
      | nil => exact ⟨[], by simp [arbitrary_vec]⟩
      | cons b tl =>
        by_cases hb : b % 2 = 1
        · have hm1 : sizeOf t + tl.length < n := by
            simp only [List.length_cons] at hn; omega
          obtain ⟨v, hv⟩ := (ih _ hm1).1 t tl (Nat.le_refl _)
          rcases he : arbitrary_input t tl with ⟨r, d2, h2⟩
          rw [he] at hv; simp at hv; subst hv
          have hm2 : sizeOf t + d2.length < n := by
            simp only [List.length_cons] at hn; omega
          obtain ⟨vs, hvs⟩ := (ih _ hm2).2.1 t d2 (Nat.le_refl _)
          rcases he2 : arbitrary_vec t d2 with ⟨r2, d3, h3⟩
          rw [he2] at hvs; simp at hvs; subst hvs
          exact ⟨v :: vs, by simp [arbitrary_vec, hb, he, he2]⟩
        · exact ⟨[], by simp [arbitrary_vec, hb]⟩
    · -- arbitrary_inputs_go
      intro acc ts d hn
      cases ts with
      | nil => exact ⟨acc, by simp [arbitrary_inputs_go], by simp⟩
      | cons t ts =>
        have hm1 : sizeOf t + d.length < n := by
          simp only [List.cons.sizeOf_spec] at hn; omega
        obtain ⟨v, hv⟩ := (ih _ hm1).1 t d (Nat.le_refl _)
        rcases he : arbitrary_input t d with ⟨r, d1, h1⟩
        rw [he] at hv; simp at hv; subst hv
        have hm2 : sizeOf ts + d1.length < n := by
          simp only [List.cons.sizeOf_spec] at hn; omega
        obtain ⟨vs, hvs, hlen⟩ :=
          (ih _ hm2).2.2 (arbitrary_inputs_step acc (.ok (.ok v))) ts d1 (Nat.le_refl _)
        rcases he2 : arbitrary_inputs_go (arbitrary_inputs_step acc (.ok (.ok v))) ts d1
          with ⟨r2, d2, h2⟩
        rw [he2] at hvs; simp at hvs; subst hvs
        refine ⟨vs, by simp [arbitrary_inputs_go, he, he2], ?_⟩
        simp [arbitrary_inputs_step] at hlen
        simp only [List.length_cons]
        omega

end MoveFuzzer

namespace MoveFuzzer

/-! ## Zero-filled fallback values

On an exhausted stream every read sees only zero-filled buffers; the value a
schema then produces is its zero value. -/

mutual

/-- The value a schema synthesises from an exhausted byte stream: numeric
zero, `false`, the zero account address, the empty vector, and a struct of
zero fields. -/
def zeroValue : FuzzerType → MoveValue
  | .Bool => .Bool false
  | .U8 => .U8 0
  | .U16 => .U16 0
  | .U32 => .U32 0
  | .U64 => .U64 0
  | .U128 => .U128 0
  | .U256 => .U256 0
  | .Address => .Address (List.replicate 32 0)
  | .Signer => .Signer (List.replicate 32 0)
  | .Vector _ => .Vector []
  | .Struct ts => .Struct (zeroValues ts)

def zeroValues : List FuzzerType → List MoveValue
  | [] => []
  | t :: ts => zeroValue t :: zeroValues ts

end

theorem zeroValues_eq_map (ts : List FuzzerType) :
    zeroValues ts = ts.map zeroValue := by
  induction ts with
  | nil => simp [zeroValues]
  | cons t ts ihts => simp [zeroValues, ihts]

theorem fromLeBytes_replicate_zero (n : Nat) :
    fromLeBytes (List.replicate n 0) = 0 := by
  induction n with
  | zero => simp [fromLeBytes]
  | succ n ihn => simp [List.replicate_succ, fromLeBytes, ihn]

theorem fill_buffer_nil (n : Nat) :
    fill_buffer n [] = (List.replicate n 0, ⟨[], Nat.le_refl _⟩) := by
  simp [fill_buffer]

theorem synth_zero (n : Nat) :
    (∀ t : FuzzerType, sizeOf t ≤ n →
      (arbitrary_input t []).1 = some (.ok (.ok (zeroValue t)))) ∧
    (∀ (acc : List MoveValue) (ts : List FuzzerType), sizeOf ts ≤ n →
      (arbitrary_inputs_go acc ts []).1 = some (acc ++ zeroValues ts)) := by
  induction n using Nat.strong_induction_on with
  | _ n ih =>
    constructor
    · intro t hn
      cases t with
      | Bool =>
        simp [arbitrary_input, arbitrary_bool, arbitrary_uint, Except.map,
          fill_buffer_nil, fromLeBytes_replicate_zero, fromLeBytes, zeroValue]
      | U8 =>
        simp [arbitrary_input, arbitrary_uint, Except.map, fill_buffer_nil,
          fromLeBytes_replicate_zero, fromLeBytes, zeroValue]
      | U16 =>
        simp [arbitrary_input, arbitrary_uint, Except.map, fill_buffer_nil,
          fromLeBytes_replicate_zero, fromLeBytes, zeroValue]
      | U32 =>
        simp [arbitrary_input, arbitrary_uint, Except.map, fill_buffer_nil,
          fromLeBytes_replicate_zero, fromLeBytes, zeroValue]
      | U64 =>
        simp [arbitrary_input, arbitrary_uint, Except.map, fill_buffer_nil,
          fromLeBytes_replicate_zero, fromLeBytes, zeroValue]
      | U128 =>
        simp [arbitrary_input, arbitrary_uint, Except.map, fill_buffer_nil,
          fromLeBytes_replicate_zero, fromLeBytes, zeroValue]
      | U256 =>
        simp [arbitrary_input, arbitrary_u256, Except.map, fill_buffer_nil,
          fromLeBytes_replicate_zero, fromLeBytes, zeroValue]
      | Address =>
        have h := arbitrary_address_fst []
        rw [fill_buffer_nil] at h
        simp [arbitrary_input, h, zeroValue]
      | Signer =>
        have h := arbitrary_signer_fst []
        rw [fill_buffer_nil] at h
        simp [arbitrary_input, h, zeroValue]
      | Vector t =>
        simp [arbitrary_input, arbitrary_vec, zeroValue]
      | Struct ts =>
        have hm : sizeOf ts < n := by
          simp only [FuzzerType.Struct.sizeOf_spec] at hn; omega
        have hgo := (ih _ hm).2 [] ts (Nat.le_refl _)
        have hw : arbitrary_inputs ts [] = arbitrary_inputs_go [] ts [] := by
          simp [arbitrary_inputs]
        rcases he : arbitrary_inputs_go [] ts [] with ⟨r, d1, h1⟩
        rw [he] at hgo; simp only at hgo; subst hgo
        simp [arbitrary_input, hw, he, zeroValue]
    · intro acc ts hn
      cases ts with
      | nil => simp [arbitrary_inputs_go, zeroValues]
      | cons t ts =>
        have hmt : sizeOf t < n := by
          simp only [List.cons.sizeOf_spec] at hn; omega
        have hv := (ih _ hmt).1 t (Nat.le_refl _)
        rcases he : arbitrary_input t [] with ⟨r, d1, h1⟩
        rw [he] at hv; simp only at hv; subst hv
        have hd1 : d1 = [] := List.eq_nil_of_length_eq_zero (Nat.le_zero.mp h1)
        subst hd1
        have hms : sizeOf ts < n := by
          simp only [List.cons.sizeOf_spec] at hn; omega
        have hgo := (ih _ hms).2 (arbitrary_inputs_step acc (.ok (.ok (zeroValue t)))) ts
          (Nat.le_refl _)
        rcases he2 : arbitrary_inputs_go
            (arbitrary_inputs_step acc (.ok (.ok (zeroValue t)))) ts [] with ⟨r2, d2, h2⟩
        rw [he2] at hgo; simp only at hgo; subst hgo
        simp only [arbitrary_inputs_step] at he2
        simp [arbitrary_inputs_go, he, he2, arbitrary_inputs_step, zeroValues]

end MoveFuzzer

namespace MoveFuzzer

/-! ## Claims about the synthesiser -/

/-- Claim C1: for every list of supported type schemas `S` and every byte
slice `b` (including the empty slice), `arbitrary_inputs S b` terminates (it
is a total Lean function) and returns a value list whose length equals the
length of `S`; no element is dropped or failed, and when the byte stream is
exhausted the reads fall back to zero-filled buffers — on the empty stream
the result is exactly the list of zero values of the schemas. -/
theorem arbitrary_inputs_length_and_zero_fill
    (S : List FuzzerType) (b : List Nat) :
    (∃ vs, (arbitrary_inputs S b).1 = some vs ∧ vs.length = S.length) ∧
    (arbitrary_inputs S []).1 = some (S.map zeroValue) := by
  constructor
  · obtain ⟨vs, h, hlen⟩ :=
      (synth_ok (sizeOf S + b.length)).2.2 [] S b (Nat.le_refl _)
    have hw : arbitrary_inputs S b = arbitrary_inputs_go [] S b := by
      simp [arbitrary_inputs]
    exact ⟨vs, by rw [hw]; exact h, by simpa using hlen⟩
  · have h := (synth_zero (sizeOf S)).2 [] S (Nat.le_refl _)
    have hw : arbitrary_inputs S [] = arbitrary_inputs_go [] S [] := by
      simp [arbitrary_inputs]
    rw [hw, h, zeroValues_eq_map]
    simp

/-- Claim C9: for every byte slice fed to the synthesiser (including one too
short or empty), the 32-byte buffer filled by the unstructured reader always
has exactly 32 bytes and therefore parses as a valid account address, so the
address-parse-error branch of `arbitrary_address` and `arbitrary_signer` is
never taken, every element synthesis returns `Ok(Ok(value))`, and the
`unwrap`s of the vector-element synthesis never panic (the panic marker
`none` is never produced). -/
theorem address_parse_branch_unreachable (d : List Nat) :
    ((fill_buffer 32 d).1).length = 32 ∧
    (∃ a, (arbitrary_account d).1 = .ok (.ok a)) ∧
    (∀ t : FuzzerType, ∃ v, (arbitrary_input t d).1 = some (.ok (.ok v))) ∧
    (∀ t : FuzzerType, ∃ vs, (arbitrary_vec t d).1 = some vs) := by
  refine ⟨fill_buffer_fst_length 32 d,
    ⟨(fill_buffer 32 d).1, arbitrary_account_fst d⟩, ?_, ?_⟩
  · intro t
    exact (synth_ok (sizeOf t + d.length)).1 t d (Nat.le_refl _)
  · intro t
    exact (synth_ok (sizeOf t + d.length)).2.1 t d (Nat.le_refl _)

/-- Claim C5 (counterexample): the claim says that after an account-address
parse failure the synthesised argument list still proceeds with a
zero-address placeholder in that position. In the code, the loop arm of
`arbitrary_inputs` that receives an `AccountAddressParseError` result only
prints it: starting from the empty result vector the vector stays empty — no
zero-address placeholder (or anything else) is pushed for that parameter. -/
theorem parse_error_element_dropped_cex :
    arbitrary_inputs_step []
      (.ok (.error (.AccountAddressParseError "invalid account address length")))
      = [] ∧
    ([] : List MoveValue) ≠ [MoveValue.Address (List.replicate 32 0)] := by
  exact ⟨rfl, by simp⟩

/-- Claim C5 (amended): when an element synthesis yields an
`AccountAddressParseError`, the run is not aborted — the error is printed by
the loop and the loop goes on — but the element is dropped from the argument
list (the accumulated result vector is returned unchanged) rather than being
replaced by a zero-address placeholder. (Moreover the branch is unreachable:
see the C9 theorem.) -/
theorem parse_error_element_dropped (acc : List MoveValue) (msg : String) :
    arbitrary_inputs_step acc (.ok (.error (.AccountAddressParseError msg)))
      = acc := rfl

end MoveFuzzer

namespace MoveFuzzer

/-! ## The module store (module_store.rs) -/

/-- A compiled module as the store sees it: its self-id (the address and name
pair) and its serialised byte content (`CompiledModule::serialize` writes the
byte content; the binary format itself is opaque to the store). -/
structure CompiledModule where
  address : Nat
  name : String
  bytes : List Nat

/-- `ModuleId`, the self-id: the (address, name) pair. -/
abbrev ModuleId : Type := Nat × String

def CompiledModule.self_id (m : CompiledModule) : ModuleId :=
  (m.address, m.name)

def CompiledModule.serialize (m : CompiledModule) : List Nat :=
  m.bytes

/-- The `modules: HashMap<ModuleId, Vec<u8>>` of `ModuleStore`, modelled by
its lookup function. -/
def ModuleStore : Type := ModuleId → Option (List Nat)

/-- `ModuleStore::add_module` (module_store.rs lines 27–32): serialise the
module once and insert the bytes under its self-id; a `HashMap::insert`
replaces any previous entry with the same key. -/
def ModuleStore.add_module (s : ModuleStore) (m : CompiledModule) :
    ModuleStore :=
  fun id => if id = m.self_id then some m.serialize else s id

/-- `ModuleStore::new` (lines 19–25): an empty map extended with the root
module. -/
def ModuleStore.new (root : CompiledModule) : ModuleStore :=
  ModuleStore.add_module (fun _ => none) root

/-- `ModuleStore::add_dependencies` (lines 34–38): insert every dependency in
order. -/
def ModuleStore.add_dependencies (s : ModuleStore)
    (dependencies : List CompiledModule) : ModuleStore :=
  dependencies.foldl ModuleStore.add_module s

/-- `ModuleResolver::get_module` (lines 44–50): the stored bytes, or absent. -/
def ModuleStore.get_module (s : ModuleStore) (id : ModuleId) :
    Option (List Nat) :=
  s id

/-- `ResourceResolver::get_resource` (lines 52–62): always absent. -/
def ModuleStore.get_resource (_s : ModuleStore) (_address : Nat)
    (_tag : String) : Option (List Nat) :=
  none

/-- Claim C8: inserting the same compiled module into a `ModuleStore` twice
yields the same store state as inserting it once; inserting a module whose
self-id duplicates an existing entry replaces the prior entry (the double
insertion equals the single insertion of the later module, and the duplicate
key afterwards resolves to the later bytes). -/
theorem add_module_idempotent_last_writer_wins :
    (∀ (s : ModuleStore) (m : CompiledModule),
      (s.add_module m).add_module m = s.add_module m) ∧
    (∀ (s : ModuleStore) (m₁ m₂ : CompiledModule),
      m₁.self_id = m₂.self_id →
      (s.add_module m₁).add_module m₂ = s.add_module m₂) ∧
    (∀ (s : ModuleStore) (m : CompiledModule),
      (s.add_module m).get_module m.self_id = some m.serialize) := by
  refine ⟨?_, ?_, ?_⟩
  · intro s m
    funext id
    by_cases h : id = m.self_id <;>
      simp [ModuleStore.add_module, h]
  · intro s m₁ m₂ hid
    funext id
    by_cases h : id = m₂.self_id
    · simp [ModuleStore.add_module, h, ← hid]
    · by_cases h1 : id = m₁.self_id
      · exact absurd (h1.trans hid) h
      · simp [ModuleStore.add_module, h, h1]
  · intro s m
    simp [ModuleStore.add_module, ModuleStore.get_module]

/-- Claim C8 (witness): a store holding `(1, m) ↦ [0]` after re-inserting a
module with the same self-id and bytes `[7]` equals the store produced by the
single insertion of the later module. -/
theorem add_module_idempotent_last_writer_wins_witness :
    (ModuleStore.new ⟨1, "m", [0]⟩).add_module ⟨1, "m", [7]⟩
      = ModuleStore.add_module (fun _ => none) ⟨1, "m", [7]⟩ :=
  add_module_idempotent_last_writer_wins.2.1 (fun _ => none)
    ⟨1, "m", [0]⟩ ⟨1, "m", [7]⟩ rfl

end MoveFuzzer

namespace MoveFuzzer

/-! ## Decimal renderings (for the Unknown status message)

`format!` renders `status as usize` in decimal. `natDigitsChars` is that
rendering at the character-list level; the lemmas show it agrees with the
`toString` the embedding uses, that its characters are decimal digits, and
that it can be decoded back, so a message that embeds it still carries the
numeric value. -/

/-- Decimal digit characters of a natural number, most significant first. -/
def natDigitsChars (n : Nat) : List Char :=
  if _h : n < 10 then [Nat.digitChar n]
  else natDigitsChars (n / 10) ++ [Nat.digitChar (n % 10)]
termination_by n
decreasing_by omega

/-- Decode a list of decimal digit characters, most significant first. -/
def decodeDigits (digits : List Char) : Nat :=
  digits.foldl (fun acc c => acc * 10 + (c.toNat - 48)) 0

theorem decodeDigits_append (digits : List Char) (c : Char) :
    decodeDigits (digits ++ [c]) = decodeDigits digits * 10 + (c.toNat - 48) := by
  simp [decodeDigits, List.foldl_append]

theorem digitChar_toNat_sub : ∀ m : Nat, m < 10 →
    (Nat.digitChar m).toNat - 48 = m := by
  decide

theorem digitChar_isDigit : ∀ m : Nat, m < 10 →
    (Nat.digitChar m).isDigit = true := by
  decide

theorem decodeDigits_natDigitsChars (n : Nat) :
    decodeDigits (natDigitsChars n) = n := by
  induction n using Nat.strong_induction_on with
  | _ n ih =>
    rw [natDigitsChars]
    by_cases h : n < 10
    · rw [dif_pos h]
      have : decodeDigits [Nat.digitChar n] = (Nat.digitChar n).toNat - 48 := by
        simp [decodeDigits]
      rw [this, digitChar_toNat_sub n h]
    · rw [dif_neg h, decodeDigits_append,
        ih (n / 10) (by omega),
        digitChar_toNat_sub (n % 10) (by omega)]
      omega

theorem natDigitsChars_isDigit (n : Nat) :
    ∀ c ∈ natDigitsChars n, c.isDigit = true := by
  induction n using Nat.strong_induction_on with
  | _ n ih =>
    rw [natDigitsChars]
    by_cases h : n < 10
    · rw [dif_pos h]
      intro c hc
      simp at hc
      subst hc
      exact digitChar_isDigit n h
    · rw [dif_neg h]
      intro c hc
      rcases List.mem_append.mp hc with hl | hr
      · exact ih (n / 10) (by omega) c hl
      · simp at hr
        subst hr
        exact digitChar_isDigit (n % 10) (by omega)

theorem toDigitsCore_eq_natDigitsChars :
    ∀ (fuel n : Nat) (acc : List Char), n < fuel →
      Nat.toDigitsCore 10 fuel n acc = natDigitsChars n ++ acc := by
  intro fuel
  induction fuel with
  | zero => intro n acc h; omega
  | succ f ihf =>
    intro n acc h
    simp only [Nat.toDigitsCore]
    by_cases h0 : n / 10 = 0
    · rw [if_pos h0, natDigitsChars, dif_pos (by omega : n < 10)]
      have : n % 10 = n := Nat.mod_eq_of_lt (by omega)
      rw [this]
      simp
    · rw [if_neg h0, ihf (n / 10) _ (by omega)]
      conv_rhs => rw [natDigitsChars, dif_neg (by omega : ¬ n < 10)]
      simp

/-- The decimal rendering of a `Nat` by `toString` is `natDigitsChars`. -/
theorem toString_nat_data (n : Nat) :
    (toString n).data = natDigitsChars n := by
  show (Nat.repr n).data = natDigitsChars n
  unfold Nat.repr Nat.toDigits
  rw [toDigitsCore_eq_natDigitsChars (n + 1) n [] (by omega)]
  simp [List.asString]

end MoveFuzzer

namespace MoveFuzzer

/-! ## VM error classification (mod.rs, `MoveRunner::execute` lines 166–188) -/

/-- The move-core `StatusCode`s the classification match names; every other
variant of the (flat, field-free) Rust status enum is collapsed into `Other`
carrying the numeric value of the status (`status as usize`), which is the
only thing the catch-all arm uses. -/
inductive StatusCode : Type where
  | ABORTED : StatusCode
  | ARITHMETIC_ERROR : StatusCode
  | MEMORY_LIMIT_EXCEEDED : StatusCode
  | OUT_OF_GAS : StatusCode
  | MISSING_DEPENDENCY : StatusCode
  | Other : Nat → StatusCode
  deriving Repr, DecidableEq

/-- The message built by the catch-all arm of the classification: the format
string renders the numeric status first, then the original free-form
message. -/
def unknown_status_message (code : Nat) (message : String) : String :=
  "Status code: " ++ toString code ++ ", " ++ message

/-- The classification match of `MoveRunner::execute` (mod.rs lines 177–184):
the five named statuses map to their `Error` variants with the error message;
everything else maps to `Unknown` with the numeric status folded into the
message. -/
def classify_vm_error (status : StatusCode) (message : String) : Error :=
  match status with
  | .ABORTED => .Abort message
  | .ARITHMETIC_ERROR => .ArithmeticError message
  | .MEMORY_LIMIT_EXCEEDED => .MemoryLimitExceeded message
  | .OUT_OF_GAS => .OutOfGas message
  | .MISSING_DEPENDENCY => .MissingDependency message
  | .Other code => .Unknown (unknown_status_message code message)

/-- Strip an expected character prefix, returning the remainder. -/
def dropPrefixChars : List Char → List Char → Option (List Char)
  | [], s => some s
  | _ :: _, [] => none
  | p :: ps, c :: cs => if p = c then dropPrefixChars ps cs else none

theorem dropPrefixChars_append (p s : List Char) :
    dropPrefixChars p (p ++ s) = some s := by
  induction p with
  | nil => simp [dropPrefixChars]
  | cons c cs ihp => simp [dropPrefixChars, ihp]

theorem takeWhile_all_append_cons (p : Char → Bool) (xs : List Char)
    (y : Char) (tl : List Char) (hx : ∀ c ∈ xs, p c = true)
    (hy : p y = false) :
    (xs ++ y :: tl).takeWhile p = xs ∧ (xs ++ y :: tl).dropWhile p = y :: tl := by
  induction xs with
  | nil => simp [List.takeWhile, List.dropWhile, hy]
  | cons c cs ihxs =>
    have hc : p c = true := hx c (by simp)
    have ih := ihxs (fun c hmem => hx c (by simp [hmem]))
    simp [List.takeWhile, List.dropWhile, hc, ih.1, ih.2]

/-- Recover the numeric status code and the original free-form message from
the text of an `Unknown` classification. -/
def decode_unknown_message (msg : String) : Option (Nat × String) :=
  match dropPrefixChars ("Status code: ".data) msg.data with
  | none => none
  | some rest =>
    match dropPrefixChars (", ".data) (rest.dropWhile Char.isDigit) with
    | none => none
    | some mrest => some (decodeDigits (rest.takeWhile Char.isDigit), String.mk mrest)

theorem decode_unknown_message_roundtrip (code : Nat) (message : String) :
    decode_unknown_message (unknown_status_message code message)
      = some (code, message) := by
  have hdata : (unknown_status_message code message).data
      = "Status code: ".data ++ (natDigitsChars code ++ (',' :: ' ' :: message.data)) := by
    simp [unknown_status_message, toString_nat_data]
  have htw := takeWhile_all_append_cons Char.isDigit (natDigitsChars code) ','
    (' ' :: message.data) (natDigitsChars_isDigit code) (by decide)
  unfold decode_unknown_message
  rw [hdata, dropPrefixChars_append]
  simp only [htw.1, htw.2]
  have h2 : dropPrefixChars [',', ' '] (',' :: ' ' :: message.data)
      = some message.data := by
    simp [dropPrefixChars]
  rw [h2]
  simp [decodeDigits_natDigitsChars]

/-- Claim C3: the classification maps status `ABORTED` to `Abort`,
`ARITHMETIC_ERROR` to `ArithmeticError`, `MEMORY_LIMIT_EXCEEDED` to
`MemoryLimitExceeded`, `OUT_OF_GAS` to `OutOfGas`, `MISSING_DEPENDENCY` to
`MissingDependency`, and every other status to `Unknown`; the `Unknown`
message carries the raw numeric status code in addition to the free-form
message (both are recovered by `decode_unknown_message`). -/
theorem classify_vm_error_table :
    (∀ m, classify_vm_error .ABORTED m = .Abort m) ∧
    (∀ m, classify_vm_error .ARITHMETIC_ERROR m = .ArithmeticError m) ∧
    (∀ m, classify_vm_error .MEMORY_LIMIT_EXCEEDED m = .MemoryLimitExceeded m) ∧
    (∀ m, classify_vm_error .OUT_OF_GAS m = .OutOfGas m) ∧
    (∀ m, classify_vm_error .MISSING_DEPENDENCY m = .MissingDependency m) ∧
    (∀ code m, classify_vm_error (.Other code) m
      = .Unknown (unknown_status_message code m)) ∧
    (∀ code m, decode_unknown_message (unknown_status_message code m)
      = some (code, m)) := by
  refine ⟨fun m => rfl, fun m => rfl, fun m => rfl, fun m => rfl, fun m => rfl,
    fun code m => rfl, fun code m => decode_unknown_message_roundtrip code m⟩

end MoveFuzzer

namespace MoveFuzzer

/-! ## The driver shim (lib.rs)

`LLVMFuzzerTestOneInput` receives a raw pointer and a length; the body runs
under `catch_unwind`, and a caught panic (like a classified VM error) ends in
`process::abort()`. The VM execution itself is external to the shim, so its
outcome is a parameter of the model. File writes of the debug branch are
modelled by recording the path and the exact text written. -/

/-- `Corpus` (lib.rs lines 21–27). -/
inductive Corpus : Type where
  | Keep : Corpus
  | Reject : Corpus
  deriving Repr, DecidableEq

/-- `Corpus::to_libfuzzer_code` (lib.rs lines 35–46): 0 for keep, -1 for
reject. -/
def Corpus.to_libfuzzer_code : Corpus → Int
  | .Keep => 0
  | .Reject => -1

/-- The `Debug` rendering of a raw `*const u8` pointer (the `data` parameter of the entry point). -/
def pointer_debug_repr (ptr : Nat) : String :=
  "0x" ++ (Nat.toDigits 16 ptr).asString

/-- What one `LLVMFuzzerTestOneInput` call did: whether control reached the
VM execution (`runner.execute`), what file was written (path and exact
content), and the returned code — `none` meaning the process aborted instead
of returning. -/
structure TestOneInputRun where
  vmInvoked : Bool
  fileWritten : Option (String × String)
  returned : Option Int
  deriving Repr, DecidableEq

/-- `test_input`, the `LLVMFuzzerTestOneInput` body (lib.rs lines 58–89):
with the debug path set, it creates the file at the path, writes
`writeln!(file, "{:?}", data)` — the `Debug` rendering of the raw pointer
argument `data`, not of the byte slice — and returns 0 without touching the
runner. Otherwise it runs `runner.execute` on the bytes: `Ok` returns 0,
`Err` prints the error and calls `process::abort()`. File-system writes are
assumed to succeed (on failure the `expect` calls panic and the hook aborts,
which no checked claim is about). -/
def test_input (debugPath : Option String) (ptr : Nat) (_bytes : List Nat)
    (vmResult : Except Error Unit) : TestOneInputRun :=
  match debugPath with
  | some path =>
    { vmInvoked := false
      fileWritten := some (path, pointer_debug_repr ptr ++ "\n")
      returned := some 0 }
  | none =>
    match vmResult with
    | .ok _ => { vmInvoked := true, fileWritten := none, returned := some 0 }
    | .error _e => { vmInvoked := true, fileWritten := none, returned := none }

/-- Claim C2 (code bug, evaluated at the failing input): with the debug-dump
path set, the entry point does not execute the target through the VM and
returns the keep code 0 — but the text written to the path is the `Debug`
rendering of the `data` pointer, not of the input bytes: two calls whose
byte contents differ (`[0]` versus `[1]`) but whose buffer sits at the same
address produce identical runs, so the file does not uniquely encode the
bytes. -/
theorem debug_dump_writes_pointer_not_bytes :
    test_input (some "/tmp/x") 4096 [0] (.ok ())
      = test_input (some "/tmp/x") 4096 [1] (.ok ()) ∧
    ([0] : List Nat) ≠ [1] ∧
    (test_input (some "/tmp/x") 4096 [0] (.ok ())).vmInvoked = false ∧
    (test_input (some "/tmp/x") 4096 [0] (.ok ())).returned = some 0 := by
  refine ⟨rfl, by simp, rfl, rfl⟩

/-- Claim C10: whenever the per-input entry point returns to the engine at
all (rather than aborting the process), its return value is 0, the `Keep`
code; the `Reject` code -1 is never returned for any input. -/
theorem test_input_returns_keep (debugPath : Option String) (ptr : Nat)
    (bytes : List Nat) (vmResult : Except Error Unit) (c : Int)
    (h : (test_input debugPath ptr bytes vmResult).returned = some c) :
    c = Corpus.Keep.to_libfuzzer_code ∧ c ≠ Corpus.Reject.to_libfuzzer_code := by
  have hc : c = 0 := by
    cases debugPath with
    | some path =>
      simp [test_input] at h
      omega
    | none =>
      cases vmResult with
      | ok _ =>
        simp [test_input] at h
        omega
      | error _ => simp [test_input] at h
  subst hc
  exact ⟨rfl, by simp [Corpus.to_libfuzzer_code]⟩

/-- Claim C10 (witness): a debug-dump call returns and its code is the keep
code. -/
theorem test_input_returns_keep_witness :
    (0 : Int) = Corpus.Keep.to_libfuzzer_code ∧
    (0 : Int) ≠ Corpus.Reject.to_libfuzzer_code :=
  test_input_returns_keep (some "/tmp/x") 4096 [0] (.ok ()) 0 rfl

end MoveFuzzer

namespace MoveFuzzer

/-! ## The coverage trace lifecycle (mod.rs, lines 79–110 and 160–174)

The filesystem state an invocation can observe or change: whether
`<coverage-map-dir>/.trace` exists, whether `.coverage_map.mvcov` exists, and
how many times it has been written. The fallible externals — `remove_file`,
`CoverageMap::from_trace_file`, `output_map_to_file`, the VM call, and
whether the traced VM emitted a trace file — enter as boolean oracles. Every
failing file operation in this code goes through `.unwrap()`, i.e. panics;
a panic is an `.error` here and reaches the chained abort panic hook. -/

structure CovState where
  traceFileExists : Bool
  coverageMapWrites : Nat
  coverageMapExists : Bool
  deriving Repr, DecidableEq

/-- What becomes of the worker after a step that may panic: the installed
panic hook (lib.rs lines 131–141) runs the previous hook and then calls
`process::abort()`, so a panic never unwinds back into the engine. -/
inductive WorkerFate : Type where
  | continues : CovState → WorkerFate
  | aborted : String → WorkerFate
  deriving Repr, DecidableEq

def worker_fate : Except String CovState → WorkerFate
  | .ok s => .continues s
  | .error msg => .aborted msg

/-- `MoveRunner::trace_cleanup` (mod.rs lines 79–86): under coverage, delete
the `.trace` file if it exists; `remove_file(..).unwrap()` panics when the
removal fails. -/
def trace_cleanup (coverage removeOk : Bool) (s : CovState) :
    Except String CovState :=
  if coverage then
    if s.traceFileExists then
      if removeOk then .ok { s with traceFileExists := false }
      else .error "remove_file unwrap failed"
    else .ok s
  else .ok s

/-- `MoveRunner::coverage_setup` (mod.rs lines 92–98): under coverage, run
`trace_cleanup` and publish the trace path through `MOVE_VM_TRACE`. -/
def coverage_setup (coverage removeOk : Bool) (s : CovState) :
    Except String CovState :=
  if coverage then trace_cleanup coverage removeOk s else .ok s

/-- `MoveRunner::export_coverage` (mod.rs lines 100–110): under coverage,
parse the `.trace` file into a coverage map and write it to
`.coverage_map.mvcov`; `output_map_to_file(..).unwrap()` panics when the
write fails, and a trace the parser cannot read panics inside
`CoverageMap::from_trace_file`. The `.trace` file itself is not touched. -/
def export_coverage (coverage parseOk writeOk : Bool) (s : CovState) :
    Except String CovState :=
  if coverage then
    if parseOk then
      if writeOk then
        .ok { s with coverageMapWrites := s.coverageMapWrites + 1,
                     coverageMapExists := true }
      else .error "output_map_to_file unwrap failed"
    else .error "from_trace_file failed"
  else .ok s

/-- The coverage-relevant control flow of one `MoveRunner::execute`
invocation (mod.rs lines 141–188): `coverage_setup`, then the VM call (which
under coverage, with `MOVE_VM_TRACE` set, makes the VM emit the trace file
when `vmEmitsTrace`), then `export_coverage` on success or `trace_cleanup`
on failure. -/
def execute_coverage_path (coverage vmOk vmEmitsTrace removeOk parseOk
    writeOk : Bool) (s0 : CovState) : Except String CovState :=
  match coverage_setup coverage removeOk s0 with
  | .error msg => .error msg
  | .ok s1 =>
    let s2 := { s1 with
      traceFileExists := s1.traceFileExists || (coverage && vmEmitsTrace) }
    if vmOk then export_coverage coverage parseOk writeOk s2
    else trace_cleanup coverage removeOk s2

/-- Claim C4 (counterexample): a coverage-enabled invocation whose VM call
succeeds (trace emitted, every file operation succeeding, starting from a
clean directory) writes the `.coverage_map.mvcov` file exactly once — but
the `.trace` file is still there afterwards: `export_coverage` only reads
it, so a `.trace` file does remain under the directory, where the claim says
none does. -/
theorem coverage_success_trace_remains_cex :
    execute_coverage_path true true true true true true
      { traceFileExists := false, coverageMapWrites := 0,
        coverageMapExists := false }
      = .ok { traceFileExists := true, coverageMapWrites := 1,
              coverageMapExists := true } := by
  rfl

/-- Claim C4 (amended): for every coverage-enabled invocation whose VM call
succeeds (with the VM emitting its trace and all file operations
succeeding), exactly one `.coverage_map.mvcov` write is performed — but the
`.trace` file remains under the coverage-map directory afterwards; it is
only deleted by the next invocation during setup, or by a failed
invocation. -/
theorem coverage_success_one_map_write_trace_remains (s0 : CovState) :
    execute_coverage_path true true true true true true s0
      = .ok { traceFileExists := true,
              coverageMapWrites := s0.coverageMapWrites + 1,
              coverageMapExists := true } := by
  rcases s0 with ⟨tr, w, cm⟩
  cases tr <;>
    simp [execute_coverage_path, coverage_setup, trace_cleanup, export_coverage]

/-- Claim C6 (counterexample): a failing coverage-map write, and a failing
trace removal, do not log-and-continue: each hits an `unwrap`, panics, and
the chained panic hook aborts the worker process. -/
theorem coverage_export_failure_aborts_cex :
    worker_fate (export_coverage true true false
      { traceFileExists := true, coverageMapWrites := 0,
        coverageMapExists := false })
      = .aborted "output_map_to_file unwrap failed" ∧
    worker_fate (trace_cleanup true false
      { traceFileExists := true, coverageMapWrites := 0,
        coverageMapExists := false })
      = .aborted "remove_file unwrap failed" := by
  exact ⟨rfl, rfl⟩

/-- Claim C6 (amended): under coverage, a failure while exporting the
coverage map — parsing the trace or writing the `.coverage_map.mvcov` file —
or while removing an existing trace file panics through `unwrap` and so
aborts the worker process through the panic hook; such failures are fatal,
not logged-and-continued. -/
theorem coverage_export_failure_aborts :
    (∀ (s : CovState) (writeOk : Bool),
      worker_fate (export_coverage true false writeOk s)
        = .aborted "from_trace_file failed") ∧
    (∀ s : CovState,
      worker_fate (export_coverage true true false s)
        = .aborted "output_map_to_file unwrap failed") ∧
    (∀ (w : Nat) (cm : Bool),
      worker_fate (trace_cleanup true false
        { traceFileExists := true, coverageMapWrites := w,
          coverageMapExists := cm })
        = .aborted "remove_file unwrap failed") := by
  refine ⟨?_, ?_, ?_⟩
  · intro s writeOk
    simp [export_coverage, worker_fate]
  · intro s
    simp [export_coverage, worker_fate]
  · intro w cm
    simp [trace_cleanup, worker_fate]

end MoveFuzzer

namespace MoveFuzzer

/-! ## ABI recovery (types.rs `FuzzerType::from`, utils.rs `transform_params`)

`move_model::ty::Type`, with each constructor the translation inspects.
Payloads the translation never reads (it matches them with `_`) are elided
or reduced; the struct case, which in the Rust looks its ordered field types
up through the model environment, carries those resolved field types
directly. `todo!()` panics with the message `not yet implemented`; at
initialisation that panic reaches the chained panic hook installed by
`LLVMFuzzerInitialize`, which aborts the process — a non-zero exit. -/

inductive PrimitiveType : Type where
  | Bool : PrimitiveType
  | U8 : PrimitiveType
  | U16 : PrimitiveType
  | U32 : PrimitiveType
  | U64 : PrimitiveType
  | U128 : PrimitiveType
  | U256 : PrimitiveType
  | Address : PrimitiveType
  | Signer : PrimitiveType
  | Num : PrimitiveType
  | Range : PrimitiveType
  | EventStore : PrimitiveType
  deriving Repr, DecidableEq

inductive MoveType : Type where
  | Primitive : PrimitiveType → MoveType
  | Vector : MoveType → MoveType
  | Struct : List MoveType → MoveType
  | Tuple : List MoveType → MoveType
  | TypeParameter : Nat → MoveType
  | Reference : Bool → MoveType → MoveType
  | Fun : MoveType → MoveType → MoveType
  | TypeDomain : MoveType → MoveType
  | ResourceDomain : MoveType
  | Error : MoveType
  | Var : Nat → MoveType
  deriving Repr

/-- The panic payload of the `todo!()` macro. -/
def todoMessage : String := "not yet implemented"

mutual

/-- `FuzzerType::from` (types.rs lines 47–83): primitives translate one to
one; vectors recurse; a struct expands to its ordered field types; every
other constructor — `Num`, `Range`, `EventStore`, `Tuple`, `TypeParameter`,
`Reference`, `Fun`, `TypeDomain`, `ResourceDomain`, `Error`, `Var` — hits
`todo!()`, a panic carrying `todoMessage` (`from` is a Lean keyword, hence
the name). -/
def FuzzerType.fromMoveType : MoveType → Except String FuzzerType
  | .Primitive p =>
    match p with
    | .Bool => .ok .Bool
    | .U8 => .ok .U8
    | .U16 => .ok .U16
    | .U32 => .ok .U32
    | .U64 => .ok .U64
    | .U128 => .ok .U128
    | .U256 => .ok .U256
    | .Address => .ok .Address
    | .Signer => .ok .Signer
    | .Num => .error todoMessage
    | .Range => .error todoMessage
    | .EventStore => .error todoMessage
  | .Vector t =>
    match FuzzerType.fromMoveType t with
    | .ok ft => .ok (.Vector ft)
    | .error e => .error e
  | .Struct fields =>
    match FuzzerType.fromMoveTypes fields with
    | .ok fts => .ok (.Struct fts)
    | .error e => .error e
  | .Tuple _ => .error todoMessage
  | .TypeParameter _ => .error todoMessage
  | .Reference _ _ => .error todoMessage
  | .Fun _ _ => .error todoMessage
  | .TypeDomain _ => .error todoMessage
  | .ResourceDomain => .error todoMessage
  | .Error => .error todoMessage
  | .Var _ => .error todoMessage

/-- The `map`/`collect_vec` over struct field types inside `FuzzerType::from`
(types.rs line 72), and equally the loop of `transform_params`: translate
each type in order, a panic at any element propagating. -/
def FuzzerType.fromMoveTypes : List MoveType → Except String (List FuzzerType)
  | [] => .ok []
  | t :: ts =>
    match FuzzerType.fromMoveType t with
    | .error e => .error e
    | .ok ft =>
      match FuzzerType.fromMoveTypes ts with
      | .error e => .error e
      | .ok fts => .ok (ft :: fts)

end

/-- `transform_params` (utils.rs lines 99–105): translate every parameter
type via `FuzzerType::from`; the `todo!()` panic of an unsupported parameter
propagates. -/
def transform_params (params : List MoveType) :
    Except String (List FuzzerType) :=
  FuzzerType.fromMoveTypes params

/-- Outcome of `LLVMFuzzerInitialize` with respect to ABI recovery: either
the recovered schema list, or a process abort — the `todo!()` panic reaches
the already-installed chained panic hook, which aborts, so the process exits
abnormally (non-zero), never returning from initialisation. -/
inductive InitOutcome : Type where
  | ok : List FuzzerType → InitOutcome
  | abortedWithDiagnostic : String → InitOutcome
  deriving Repr

/-- ABI recovery as run during initialisation (lib.rs `initialize` →
`MoveRunner::new` → `generate_abi_from_bin` → `transform_params`). -/
def initialize_abi (params : List MoveType) : InitOutcome :=
  match transform_params params with
  | .ok ps => .ok ps
  | .error msg => .abortedWithDiagnostic msg

mutual

/-- Whether a type mentions, at any depth the translation visits, one of the
four unsupported parameter kinds the claim names: references, type
parameters, tuples, and function types. -/
def mentionsUnsupportedKind : MoveType → Bool
  | .Reference _ _ => true
  | .TypeParameter _ => true
  | .Tuple _ => true
  | .Fun _ _ => true
  | .Vector t => mentionsUnsupportedKind t
  | .Struct fields => mentionsUnsupportedKindList fields
  | _ => false

def mentionsUnsupportedKindList : List MoveType → Bool
  | [] => false
  | t :: ts => mentionsUnsupportedKind t || mentionsUnsupportedKindList ts

end

/-- Substring check over character lists: `containsChars needle haystack`. -/
def startsWithChars : List Char → List Char → Bool
  | [], _ => true
  | _ :: _, [] => false
  | a :: as, b :: bs => a == b && startsWithChars as bs

def containsChars (needle : List Char) : List Char → Bool
  | [] => startsWithChars needle []
  | c :: cs => startsWithChars needle (c :: cs) || containsChars needle cs

/-- Every failure of the translation carries the fixed `todo!()` message. -/
theorem fromMoveType_error_is_todo (n : Nat) :
    (∀ t : MoveType, sizeOf t ≤ n →
      ∀ e, FuzzerType.fromMoveType t = .error e → e = todoMessage) ∧
    (∀ ts : List MoveType, sizeOf ts ≤ n →
      ∀ e, FuzzerType.fromMoveTypes ts = .error e → e = todoMessage) := by
  induction n using Nat.strong_induction_on with
  | _ n ih =>
    constructor
    · intro t hn e he
      cases t with
      | Primitive p =>
        cases p <;> simp_all [FuzzerType.fromMoveType, todoMessage]
      | Vector t =>
        have hm : sizeOf t < n := by
          simp only [MoveType.Vector.sizeOf_spec] at hn; omega
        rcases hr : FuzzerType.fromMoveType t with e1 | ft
        · simp [FuzzerType.fromMoveType, hr] at he
          subst he
          exact (ih _ hm).1 t (Nat.le_refl _) e1 hr
        · simp [FuzzerType.fromMoveType, hr] at he
      | Struct fields =>
        have hm : sizeOf fields < n := by
          simp only [MoveType.Struct.sizeOf_spec] at hn; omega
        rcases hr : FuzzerType.fromMoveTypes fields with e1 | fts
        · simp [FuzzerType.fromMoveType, hr] at he
          subst he
          exact (ih _ hm).2 fields (Nat.le_refl _) e1 hr
        · simp [FuzzerType.fromMoveType, hr] at he
      | Tuple ts => simp_all [FuzzerType.fromMoveType]
      | TypeParameter i => simp_all [FuzzerType.fromMoveType]
      | Reference b t => simp_all [FuzzerType.fromMoveType]
      | Fun a r => simp_all [FuzzerType.fromMoveType]
      | TypeDomain t => simp_all [FuzzerType.fromMoveType]
      | ResourceDomain => simp_all [FuzzerType.fromMoveType]
      | Error => simp_all [FuzzerType.fromMoveType]
      | Var i => simp_all [FuzzerType.fromMoveType]
    · intro ts hn e he
      cases ts with
      | nil => simp [FuzzerType.fromMoveTypes] at he
      | cons t ts =>
        have hmt : sizeOf t < n := by
          simp only [List.cons.sizeOf_spec] at hn; omega
        have hms : sizeOf ts < n := by
          simp only [List.cons.sizeOf_spec] at hn; omega
        rcases hr : FuzzerType.fromMoveType t with e1 | ft
        · simp [FuzzerType.fromMoveTypes, hr] at he
          subst he
          exact (ih _ hmt).1 t (Nat.le_refl _) e1 hr
        · rcases hr2 : FuzzerType.fromMoveTypes ts with e2 | fts
          · simp [FuzzerType.fromMoveTypes, hr, hr2] at he
            subst he
            exact (ih _ hms).2 ts (Nat.le_refl _) e2 hr2
          · simp [FuzzerType.fromMoveTypes, hr, hr2] at he

/-- A type that mentions an unsupported kind makes the translation fail. -/
theorem fromMoveType_unsupported_fails (n : Nat) :
    (∀ t : MoveType, sizeOf t ≤ n → mentionsUnsupportedKind t = true →
      ∃ e, FuzzerType.fromMoveType t = .error e) ∧
    (∀ ts : List MoveType, sizeOf ts ≤ n →
      mentionsUnsupportedKindList ts = true →
      ∃ e, FuzzerType.fromMoveTypes ts = .error e) := by
  induction n using Nat.strong_induction_on with
  | _ n ih =>
    constructor
    · intro t hn hu
      cases t with
      | Primitive p => simp [mentionsUnsupportedKind] at hu
      | Vector t =>
        have hm : sizeOf t < n := by
          simp only [MoveType.Vector.sizeOf_spec] at hn; omega
        simp only [mentionsUnsupportedKind] at hu
        obtain ⟨e, he⟩ := (ih _ hm).1 t (Nat.le_refl _) hu
        exact ⟨e, by simp [FuzzerType.fromMoveType, he]⟩
      | Struct fields =>
        have hm : sizeOf fields < n := by
          simp only [MoveType.Struct.sizeOf_spec] at hn; omega
        simp only [mentionsUnsupportedKind] at hu
        obtain ⟨e, he⟩ := (ih _ hm).2 fields (Nat.le_refl _) hu
        exact ⟨e, by simp [FuzzerType.fromMoveType, he]⟩
      | Tuple ts => exact ⟨todoMessage, rfl⟩
      | TypeParameter i => exact ⟨todoMessage, rfl⟩
      | Reference b t => exact ⟨todoMessage, rfl⟩
      | Fun a r => exact ⟨todoMessage, rfl⟩
      | TypeDomain t => simp [mentionsUnsupportedKind] at hu
      | ResourceDomain => simp [mentionsUnsupportedKind] at hu
      | Error => simp [mentionsUnsupportedKind] at hu
      | Var i => simp [mentionsUnsupportedKind] at hu
    · intro ts hn hu
      cases ts with
      | nil => simp [mentionsUnsupportedKindList] at hu
      | cons t ts =>
        have hmt : sizeOf t < n := by
          simp only [List.cons.sizeOf_spec] at hn; omega
        have hms : sizeOf ts < n := by
          simp only [List.cons.sizeOf_spec] at hn; omega
        simp only [mentionsUnsupportedKindList, Bool.or_eq_true] at hu
        rcases hr : FuzzerType.fromMoveType t with e1 | ft
        · exact ⟨e1, by simp [FuzzerType.fromMoveTypes, hr]⟩
        · rcases hu with hu | hu
          · obtain ⟨e, he⟩ := (ih _ hmt).1 t (Nat.le_refl _) hu
            rw [hr] at he
            simp at he
          · obtain ⟨e, he⟩ := (ih _ hms).2 ts (Nat.le_refl _) hu
            exact ⟨e, by simp [FuzzerType.fromMoveTypes, hr, he]⟩

/-- Claim C7 (counterexample): a target function with a `&u64` reference
parameter does make ABI recovery fail fatally (the `todo!()` panic aborts
the process through the panic hook, a non-zero exit) — but the diagnostic is
the fixed panic payload `not yet implemented`: it does not mention the
offending parameter type (it contains neither `Reference` nor `reference`,
nor the `&` sigil of a reference type). -/
theorem unsupported_param_diagnostic_cex :
    initialize_abi [MoveType.Reference false (MoveType.Primitive .U64)]
      = .abortedWithDiagnostic todoMessage ∧
    containsChars ("eference".data) (todoMessage.data) = false ∧
    containsChars ("&".data) (todoMessage.data) = false := by
  refine ⟨rfl, by decide, by decide⟩

/-- Claim C7 (amended): for every target function whose parameter list
mentions a reference, type parameter, tuple, or function type, ABI recovery
at initialisation fails fatally — the `todo!()` panic reaches the chained
panic hook, which aborts, so initialisation never returns normally and the
process exits non-zero — with the generic diagnostic `not yet implemented`,
which does not name the offending parameter type. -/
theorem unsupported_param_aborts_init (params : List MoveType)
    (h : mentionsUnsupportedKindList params = true) :
    initialize_abi params = .abortedWithDiagnostic todoMessage := by
  obtain ⟨e, he⟩ :=
    (fromMoveType_unsupported_fails (sizeOf params)).2 params (Nat.le_refl _) h
  have heq : e = todoMessage :=
    (fromMoveType_error_is_todo (sizeOf params)).2 params (Nat.le_refl _) e he
  subst heq
  simp [initialize_abi, transform_params, he]

/-- Claim C7 (witness): the single reference parameter `&u64` mentions an
unsupported kind, and initialisation on it aborts with the generic
diagnostic. -/
theorem unsupported_param_aborts_init_witness :
    initialize_abi [MoveType.Reference false (MoveType.Primitive .U64)]
      = .abortedWithDiagnostic todoMessage :=
  unsupported_param_aborts_init
    [MoveType.Reference false (MoveType.Primitive .U64)] rfl

end MoveFuzzer
